import Mathlib

/-!
Shallow embedding of the indexing and retrieval pipeline of the
danapany/trouble-report repository (src/document_processor.py,
src/vector_store.py, src/rag_engine.py, src/chatbot.py), together with
theorems settling the frozen claims about it.

Modelling conventions:
* Python strings handled character-wise by the chunker are `List Char`;
  strings that are only carried around are `String`.
* Embedding vectors are `List ℚ`; the failure sentinel of
  `VectorStore.get_embedding` / `get_embeddings_batch` is the empty list.
* External calls (OpenAI embeddings, the chat completion, the ChromaDB
  query) are parameters of the Lean functions; `Option` models a raised
  exception (`none` = the call raised).
* The `while` loop of `chunk_text` is modelled with explicit fuel, because
  (as proved below) it does not terminate on all inputs.  `none` means the
  fuel ran out, i.e. the loop performed more iterations than the fuel.
-/

namespace Trouble

/-- Embedding vectors; the failure sentinel is the empty list. -/
abbrev Vec := List ℚ

/-! ## Python primitives used by `document_processor.chunk_text` -/

/-- Python slice-index normalization for a sequence of length `n`:
negative indices count from the end, results are clamped to `[0, n]`. -/
def pyIdx (n : Nat) (a : Int) : Nat :=
  if a < 0 then ((n : Int) + a).toNat else min a.toNat n

/-- Python slicing `t[a:b]` on lists. -/
def pySlice (t : List Char) (a b : Int) : List Char :=
  (t.take (pyIdx t.length b)).drop (pyIdx t.length a)

/-- Does `sub` occur in `t` starting at position `i`? -/
def matchAt (t sub : List Char) (i : Nat) : Bool :=
  (t.drop i).take sub.length == sub

/-- Python `t.rfind(sub, a, b)`: the greatest index of an occurrence of
`sub` lying inside the normalized window `[a', b')`, or `none` (Python
returns `-1`). -/
def pyRfind (t sub : List Char) (a b : Int) : Option Nat :=
  let lo := pyIdx t.length a
  let hi := pyIdx t.length b
  ((List.range (hi + 1)).filter
    (fun i => decide (lo ≤ i) && decide (i + sub.length ≤ hi) && matchAt t sub i)).getLast?

/-- Whitespace characters removed by Python `str.strip()` (ASCII subset). -/
def isPySpace (c : Char) : Bool :=
  c == ' ' || c == '\t' || c == '\n' || c == '\r' || c == '\x0b' || c == '\x0c'

/-- Python `str.strip()`. -/
def pyStrip (l : List Char) : List Char :=
  ((l.dropWhile isPySpace).reverse.dropWhile isPySpace).reverse

/-! ## `DocumentProcessor.chunk_text` (document_processor.py, lines 86-114) -/

/-- The ordered boundary-delimiter list of `chunk_text`:
`['\n\n', '\n', '. ', '。', '! ', '? ']`. -/
def pyDelims : List (List Char) :=
  [['\n', '\n'], ['\n'], ['.', ' '], ['。'], ['!', ' '], ['?', ' ']]

/-- The delimiter-snapping `for` loop of `chunk_text`: the first delimiter
(by priority) found in the window `[start, e0)` moves the window end to
just after its last occurrence; otherwise the end is unchanged. -/
def snapGo (t : List Char) (start e0 : Int) : List (List Char) → Int
  | [] => e0
  | d :: ds =>
    match pyRfind t d start e0 with
    | some pos => (pos : Int) + d.length
    | none => snapGo t start e0 ds

/-- Window-end computation of one `chunk_text` iteration. -/
def snapEnd (t : List Char) (start e0 : Int) : Int :=
  snapGo t start e0 pyDelims

/-- Trace record of one iteration of the `chunk_text` loop: the window
start, the (possibly snapped) window end, and the stripped chunk. -/
structure IterRec where
  start : Int
  stop : Int
  chunk : List Char
  deriving DecidableEq, Repr

/-- The `while start < text_length` loop of `chunk_text`, instrumented to
record every iteration.  `fuel` bounds the number of iterations; `none`
means the loop ran longer than the fuel (in particular it is `none` for
every fuel on inputs where the loop diverges). -/
def chunkLoop (t : List Char) (size overlap : Int) (fuel : Nat) (start : Int)
    (acc : List IterRec) : Option (List IterRec) :=
  if start < (t.length : Int) then
    match fuel with
    | 0 => none
    | fuel' + 1 =>
      let e0 := start + size
      let e1 := if e0 < (t.length : Int) then snapEnd t start e0 else e0
      let ch := pyStrip (pySlice t start e1)
      chunkLoop t size overlap fuel'
        (if e1 < (t.length : Int) then e1 - overlap else e1)
        (acc ++ [⟨start, e1, ch⟩])
  else
    some acc

/-- The chunks appended by the loop: exactly the non-empty stripped chunks
of the trace (`if chunk: chunks.append(chunk)`). -/
def chunksOf (recs : List IterRec) : List (List Char) :=
  (recs.map IterRec.chunk).filter (fun c => !c.isEmpty)

/-- `DocumentProcessor.chunk_text`, with explicit iteration fuel.
`self.chunk_size` and `self.chunk_overlap` are the `size` and `overlap`
arguments (`DocumentProcessor.__init__` stores them without validation). -/
def chunk_text (fuel : Nat) (t : List Char) (size overlap : Int) :
    Option (List (List Char)) :=
  if t.isEmpty then some []
  else (chunkLoop t size overlap fuel 0 []).map chunksOf

/-! ## `VectorStore.get_embeddings_batch` (vector_store.py, lines 86-115) -/

/-- One external OpenAI batch-embedding call; `none` models a raised
exception (caught by the `except` of `get_embeddings_batch`). -/
abbrev EmbedCall := List String → Option (List Vec)

/-- The batch loop of `get_embeddings_batch` for a positive batch size
`d0 + 1`: each group of at most `d0 + 1` texts issues one provider call;
on success the returned vectors are appended, on failure the group's slots
are filled with the empty sentinel (`embeddings.extend([[] for _ in batch])`). -/
def embedBatchGo (ec : EmbedCall) (d0 : Nat) : List String → List Vec
  | [] => []
  | h :: rest =>
    let batch := (h :: rest).take (d0 + 1)
    let es :=
      match ec batch with
      | some r => r
      | none => batch.map (fun _ => ([] : Vec))
    es ++ embedBatchGo ec d0 ((h :: rest).drop (d0 + 1))
  termination_by l => l.length
  decreasing_by simp [List.length_drop]; omega

/-- `VectorStore.get_embeddings_batch`.  The iteration
`range(0, len(texts), batch_size)` raises `ValueError` for a zero step
(modelled `none`) and is empty for a negative step. -/
def get_embeddings_batch (ec : EmbedCall) (texts : List String) (batchSize : Int) :
    Option (List Vec) :=
  if batchSize = 0 then none
  else if batchSize < 0 then some []
  else some (embedBatchGo ec (batchSize.toNat - 1) texts)

/-! ## `VectorStore.add_documents` (vector_store.py, lines 117-160) -/

/-- The metadata mapping as far as the pipeline reads it
(`metadata.get('file_name', ...)` and `metadata.get('type', ...)`);
`none` models an absent key. -/
structure MetaDict where
  file_name : Option String
  type : Option String
  deriving DecidableEq, Repr

/-- An input document of `add_documents`: `{'id', 'text', 'metadata'}`. -/
structure AddDoc where
  id : String
  text : String
  metadata : MetaDict
  deriving DecidableEq, Repr

/-- Argument tuple of one `collection.add` call:
`(ids, documents, embeddings, metadatas)`. -/
abbrev WriteReq := List String × List String × List Vec × List MetaDict

/-- The write loop of `add_documents` for a positive batch size `d0 + 1`:
the four parallel lists are sliced by the same indices and each slice
quadruple is handed to `collection.add`. -/
def addGo (d0 : Nat) : List String → List String → List Vec → List MetaDict →
    List WriteReq
  | [], _, _, _ => []
  | i :: it, txts, embs, metas =>
    ((i :: it).take (d0 + 1), txts.take (d0 + 1), embs.take (d0 + 1),
        metas.take (d0 + 1)) ::
      addGo d0 ((i :: it).drop (d0 + 1)) (txts.drop (d0 + 1))
        (embs.drop (d0 + 1)) (metas.drop (d0 + 1))
  termination_by ids _ _ _ => ids.length
  decreasing_by simp [List.length_drop]; omega

/-- `VectorStore.add_documents`: extracts the parallel id/text/metadata
lists, generates embeddings via `get_embeddings_batch` (sentinel-filling,
no filtering of any kind), and issues the batched `collection.add` calls.
The result is the list of write requests; `none` models the `ValueError`
of a zero batch size escaping (the embedding call is outside the `try`). -/
def add_documents (ec : EmbedCall) (docs : List AddDoc) (batchSize : Int) :
    Option (List WriteReq) :=
  if docs.isEmpty then some []
  else
    let texts := docs.map AddDoc.text
    let ids := docs.map AddDoc.id
    let metas := docs.map AddDoc.metadata
    match get_embeddings_batch ec texts batchSize with
    | none => none
    | some embs =>
      if batchSize < 0 then some []
      else some (addGo (batchSize.toNat - 1) ids texts embs metas)

/-- The `(id, text, embedding, metadata)` tuples contained in a list of
write requests — what `collection.add` is asked to store. -/
def storedItems (reqs : List WriteReq) : List (String × String × Vec × MetaDict) :=
  reqs.flatMap (fun r => r.1.zip (r.2.1.zip (r.2.2.1.zip r.2.2.2)))

/-! ## `VectorStore.search` (vector_store.py, lines 162-197) -/

/-- The raw ChromaDB `collection.query` result: one inner list per query
embedding (the code queries with a single embedding and takes `[0]`). -/
structure ChromaRaw where
  documents : List (List String)
  metadatas : List (List MetaDict)
  distances : List (List ℚ)
  deriving Repr

/-- The dictionary returned by `VectorStore.search`. -/
structure SearchRes where
  documents : List String
  metadatas : List MetaDict
  distances : List ℚ
  deriving DecidableEq, Repr

/-- The empty search result `{'documents': [], 'metadatas': [], 'distances': []}`. -/
def emptySearch : SearchRes := ⟨[], [], []⟩

/-- `VectorStore.search`.  `queryEmbedding` is what `get_embedding`
returned (empty = the embedding call failed); `raw` is the ChromaDB query
outcome (`none` = the call raised, caught by the `except`).  The
`results['documents'][0] if results['documents'] else []` pattern is
`List.headD []`. -/
def search (queryEmbedding : Vec) (raw : Option ChromaRaw) : SearchRes :=
  if queryEmbedding.isEmpty then emptySearch
  else
    match raw with
    | none => emptySearch
    | some r => ⟨r.documents.headD [], r.metadatas.headD [], r.distances.headD []⟩

/-! ## `RAGEngine` (rag_engine.py) -/

/-- One formatted retrieved document:
`{'text': ..., 'metadata': ..., 'score': 1 - distance}`. -/
structure RDoc where
  text : String
  metadata : MetaDict
  score : ℚ
  deriving DecidableEq, Repr

/-- The formatting loop of `retrieve_relevant_documents`: positional
indexing into `metadatas` and `distances` alongside `documents`; a missing
index is a Python `IndexError` (modelled `none`, since this function has
no exception handler). -/
def retrieveGo (res : SearchRes) : List String → Nat → Option (List RDoc)
  | [], _ => some []
  | d :: ds, i =>
    match res.metadatas[i]?, res.distances[i]? with
    | some m, some dist =>
      (retrieveGo res ds (i + 1)).map (fun rest => ⟨d, m, 1 - dist⟩ :: rest)
    | _, _ => none

/-- `RAGEngine.retrieve_relevant_documents` applied to the search result. -/
def retrieve_relevant_documents (res : SearchRes) : Option (List RDoc) :=
  retrieveGo res res.documents 0

/-- One labeled context block of `_build_context`:
`"[문서 {i+1}: {file_name}]\n{text}\n"`, with the `(이미지 내용)` suffix
for `type == 'ocr'`. -/
def formatBlock (i : Nat) (d : RDoc) : String :=
  let fname := d.metadata.file_name.getD "Unknown"
  if d.metadata.type.getD "text" = "ocr" then
    "[문서 " ++ toString (i + 1) ++ ": " ++ fname ++ " (이미지 내용)]\n" ++ d.text ++ "\n"
  else
    "[문서 " ++ toString (i + 1) ++ ": " ++ fname ++ "]\n" ++ d.text ++ "\n"

/-- The accumulation loop of `_build_context`: blocks are kept while the
running length stays within `maxLen`; the first block that would exceed it
stops the loop (`break`), dropping it and everything after it. -/
def contextGo (maxLen : Nat) : List RDoc → Nat → Nat → List String
  | [], _, _ => []
  | d :: ds, i, cur =>
    let item := formatBlock i d
    if cur + item.length > maxLen then []
    else item :: contextGo maxLen ds (i + 1) (cur + item.length)

/-- `RAGEngine._build_context`: the kept blocks joined with `"\n"`. -/
def build_context (docs : List RDoc) (maxLen : Nat) : String :=
  String.intercalate "\n" (contextGo maxLen docs 0 0)

/-- A source citation entry of `generate_answer`:
`{'file_name', 'type', 'score': round(score, 3)}`. -/
structure Citation where
  file_name : String
  type : String
  score : ℚ
  deriving DecidableEq, Repr

/-- Python `round(q, 3)` (round half to even), on exact rationals. -/
def pyRound3 (q : ℚ) : ℚ :=
  let s := q * 1000
  let f : Int := ⌊s⌋
  let fr : ℚ := s - f
  let r : Int :=
    if fr < 1 / 2 then f
    else if 1 / 2 < fr then f + 1
    else if f % 2 = 0 then f else f + 1
  (r : ℚ) / 1000

/-- The citation derived from one retrieved document. -/
def citeOf (d : RDoc) : Citation :=
  ⟨d.metadata.file_name.getD "Unknown", d.metadata.type.getD "unknown",
    pyRound3 d.score⟩

/-- The citation loop of `generate_answer`: every context document yields
a citation, appended unless an equal one is already present
(`if source_info not in sources`). -/
def buildSources (docs : List RDoc) : List Citation :=
  docs.foldl (fun acc d => let c := citeOf d; if c ∈ acc then acc else acc ++ [c]) []

/-- `RAGEngine.generate_answer`: builds the context (default budget 4000),
issues the chat-completion call on the built prompt (`llm`, `none` = the
call raised), and returns the answer with the citation list; on failure
the fixed apology string with no citations. -/
def generate_answer (q : String) (docs : List RDoc) (llm : String → Option String) :
    String × List Citation :=
  let context := build_context docs 4000
  let userPrompt :=
    "다음은 사내 지식문서에서 검색된 관련 내용입니다:\n\n" ++ context ++
      "\n\n질문: " ++ q ++ "\n\n위 문서 내용을 바탕으로 질문에 답변해주세요."
  match llm userPrompt with
  | some ans => (ans, buildSources docs)
  | none => ("죄송합니다. 답변 생성 중 오류가 발생했습니다.", [])

/-- The dictionary returned by `RAGEngine.query`. -/
structure QueryResult where
  query : String
  answer : String
  sources : List Citation
  retrieved_docs : List RDoc
  deriving DecidableEq, Repr

/-- `RAGEngine.query`: retrieve, early-return on no results, otherwise
generate and return with `retrieved_docs[:3]`.  `none` models an
`IndexError` escaping from `retrieve_relevant_documents`. -/
def ragQuery (q : String) (res : SearchRes) (llm : String → Option String) :
    Option QueryResult :=
  match retrieve_relevant_documents res with
  | none => none
  | some docs =>
    if docs.isEmpty then
      some ⟨q, "관련된 문서를 찾을 수 없습니다. 다른 질문을 시도해보세요.", [], []⟩
    else
      let ga := generate_answer q docs llm
      some ⟨q, ga.1, ga.2, docs.take 3⟩

/-! ## `RAGChatbot.index_documents`, text-chunk flattening (chatbot.py, lines 100-112) -/

/-- One processed document as returned by
`DocumentProcessor.process_document`. -/
structure PDoc where
  file_path : String
  file_name : String
  text : String
  chunks : List String
  images : List String
  deriving DecidableEq, Repr

/-- Python `pathlib.PurePath(name).stem` for a plain file name:
`name[:i]` for the last dot position `i` when `0 < i < len(name) - 1`,
otherwise `name` itself. -/
def pyStem (name : String) : String :=
  let cs := name.toList
  match ((List.range cs.length).filter (fun i => cs[i]? == some '.')).getLast? with
  | some i => if 0 < i ∧ i < cs.length - 1 then String.mk (cs.take i) else name
  | none => name

/-- Metadata attached to a text-chunk item by `index_documents`. -/
structure TextDocMeta where
  file_name : String
  file_path : String
  chunk_index : Nat
  type : String
  deriving DecidableEq, Repr

/-- A text-chunk `IndexedItem` built by `index_documents`. -/
structure TextDoc where
  id : String
  text : String
  metadata : TextDocMeta
  deriving DecidableEq, Repr

/-- The flattening loop of `index_documents` (step 2): every chunk of
every processed document becomes an item with
`id = f"{Path(file_name).stem}_chunk_{i}"` and `type = 'text'` metadata. -/
def buildTextDocuments (docs : List PDoc) : List TextDoc :=
  docs.flatMap (fun d =>
    d.chunks.enum.map (fun ic =>
      { id := pyStem d.file_name ++ "_chunk_" ++ toString ic.1
        text := ic.2
        metadata := ⟨d.file_name, d.file_path, ic.1, "text"⟩ }))

/-! ## Helper lemmas -/

/-- If no occurrence of `sub` exists anywhere in `t`, `rfind` reports none
for every window. -/
theorem pyRfind_eq_none (t sub : List Char) (hf : ∀ i, matchAt t sub i = false)
    (a b : Int) : pyRfind t sub a b = none := by
  unfold pyRfind
  simp [hf]

/-- The delimiter loop leaves the window end unchanged when no delimiter
of the list occurs in the text. -/
theorem snapGo_eq_of_matchfree (t : List Char) (a b : Int) :
    ∀ ds : List (List Char), (∀ d ∈ ds, ∀ i, matchAt t d i = false) →
      snapGo t a b ds = b := by
  intro ds
  induction ds with
  | nil => intro _; rfl
  | cons d ds ih =>
    intro h
    unfold snapGo
    rw [pyRfind_eq_none t d (h d (List.mem_cons_self d ds)) a b]
    exact ih (fun d' hd' i => h d' (List.mem_cons_of_mem d hd') i)

/-- `snapEnd` is the identity on the window end for delimiter-free text. -/
theorem snapEnd_eq_of_delimFree (t : List Char)
    (hf : ∀ d ∈ pyDelims, ∀ i, matchAt t d i = false) (a b : Int) :
    snapEnd t a b = b :=
  snapGo_eq_of_matchfree t a b pyDelims hf

/-- No pattern containing a character different from `x` occurs in
`List.replicate n x`. -/
theorem matchAt_replicate_eq_false (x : Char) (n : Nat) (d : List Char)
    (hd : ∃ c ∈ d, c ≠ x) : ∀ i, matchAt (List.replicate n x) d i = false := by
  intro i
  obtain ⟨c, hc, hcx⟩ := hd
  unfold matchAt
  rw [List.drop_replicate, List.take_replicate]
  cases h : (List.replicate (min d.length (n - i)) x == d) with
  | false => rfl
  | true =>
    exfalso
    have hEq : List.replicate (min d.length (n - i)) x = d := eq_of_beq h
    exact hcx (List.eq_of_mem_replicate (hEq ▸ hc))

/-- Dropping leading whitespace does nothing on whitespace-free lists. -/
theorem dropWhile_eq_self_of_not (p : Char → Bool) (l : List Char)
    (h : ∀ c ∈ l, p c = false) : l.dropWhile p = l := by
  cases l with
  | nil => rfl
  | cons a l => simp [List.dropWhile_cons, h a (List.mem_cons_self a l)]

/-- `strip` is the identity on whitespace-free lists. -/
theorem pyStrip_eq_self (l : List Char) (h : ∀ c ∈ l, isPySpace c = false) :
    pyStrip l = l := by
  unfold pyStrip
  rw [dropWhile_eq_self_of_not _ l h,
    dropWhile_eq_self_of_not _ l.reverse (fun c hc => h c (List.mem_reverse.mp hc)),
    List.reverse_reverse]

/-- `strip` of an all-whitespace list is empty. -/
theorem pyStrip_eq_nil (l : List Char) (h : ∀ c ∈ l, isPySpace c = true) :
    pyStrip l = [] := by
  unfold pyStrip
  rw [List.dropWhile_eq_nil_iff.mpr h]
  rfl

/-- Stripping never lengthens a chunk. -/
theorem pyStrip_length_le (l : List Char) : (pyStrip l).length ≤ l.length := by
  unfold pyStrip
  calc ((l.dropWhile isPySpace).reverse.dropWhile isPySpace).reverse.length
      = ((l.dropWhile isPySpace).reverse.dropWhile isPySpace).length := by
        rw [List.length_reverse]
    _ ≤ (l.dropWhile isPySpace).reverse.length :=
        (List.dropWhile_sublist _).length_le
    _ = (l.dropWhile isPySpace).length := by rw [List.length_reverse]
    _ ≤ l.length := (List.dropWhile_sublist _).length_le

/-! ## Claim C3 (code bug): the `chunk_text` loop can diverge

On `text = "\n\naaaa"`, `size = 3`, `overlap = 2` (so `0 < overlap < size`
holds), the first window `[0, 3)` is snapped back to the `"\n\n"` boundary
at position 0, giving `end = 2`; since `end < len(text)`, the next start is
`end - overlap = 0` again, so the loop repeats the same iteration forever
(the appended chunk strips to empty, so nothing is even collected). -/

/-- The loop body maps state `start = 0` back to `start = 0` on the bad
input, for every fuel and accumulator. -/
theorem chunkLoop_diverges_aux :
    ∀ (fuel : Nat) (acc : List IterRec),
      chunkLoop ['\n', '\n', 'a', 'a', 'a', 'a'] 3 2 fuel 0 acc = none := by
  intro fuel
  induction fuel with
  | zero => intro acc; rfl
  | succ n ih => intro acc; exact ih (acc ++ [⟨0, 2, []⟩])

/-- C3: false on the code — for `0 < overlap < size` the chunking loop
need not terminate.  On the 6-character text `"\n\naaaa"` with `size = 3`,
`overlap = 2`, the loop never finishes (it is still running after every
number of iterations), so `chunk_text` is `none` for every fuel; in
particular the window starts are `0, 0, 0, …`, not strictly increasing. -/
theorem chunk_text_diverges :
    ∀ fuel : Nat, chunk_text fuel ['\n', '\n', 'a', 'a', 'a', 'a'] 3 2 = none := by
  intro fuel
  unfold chunk_text
  rw [if_neg (by simp)]
  rw [chunkLoop_diverges_aux fuel []]
  rfl

/-! ## Claim C4: no `overlap < size` validation exists -/

/-- C4 counterexample: calling the chunker with `overlap = 7 ≥ 5 = size`
does not fail with a configuration error — neither
`DocumentProcessor.__init__` nor `chunk_text` checks the precondition; the
call proceeds normally and returns the single chunk. -/
theorem chunk_text_overlap_ge_size_proceeds :
    chunk_text 1 ['a', 'b'] 5 7 = some [['a', 'b']] := by rfl

/-- C4 amended: the precondition `overlap < size` is not enforced
anywhere; with `overlap ≥ size` and a text that fits into a single window
the call proceeds without any error and returns the stripped text (the
loop simply terminates after one iteration because `end ≥ len(text)`). -/
theorem chunk_text_no_validation (t : List Char) (size overlap : Int)
    (ht : t ≠ []) (hsize : (t.length : Int) ≤ size) (_hov : size ≤ overlap) :
    chunk_text 1 t size overlap =
      some (if (pyStrip t).isEmpty then [] else [pyStrip t]) := by
  have hlen : 0 < t.length := List.length_pos.mpr ht
  have hslice : pySlice t 0 size = t := by
    unfold pySlice pyIdx
    have hs0 : ¬(size < 0) := by omega
    have hlen' : t.length ≤ size.toNat := by omega
    rw [if_neg hs0, if_neg (by omega)]
    simp [Nat.min_eq_right hlen', List.take_of_length_le (Nat.le_refl _)]
  have hnotlt : ¬(size < (t.length : Int)) := by omega
  have hloop : chunkLoop t size overlap 1 0 [] = some [⟨0, size, pyStrip t⟩] := by
    rw [chunkLoop]
    rw [if_pos (show (0 : Int) < t.length by exact_mod_cast hlen)]
    simp only [zero_add, if_neg hnotlt, hslice, List.nil_append]
    rw [chunkLoop]
    rw [if_neg hnotlt]
  unfold chunk_text
  rw [if_neg (by simp [ht]), hloop]
  unfold chunksOf
  cases h : (pyStrip t).isEmpty with
  | false => simp [List.filter, h]
  | true => simp [List.filter, h]

/-- C4 witness: the amended statement at `text = "ab"`, `size = 5`,
`overlap = 7`. -/
theorem chunk_text_no_validation_witness :
    chunk_text 1 ['a', 'b'] 5 7 =
      some (if (pyStrip ['a', 'b']).isEmpty then [] else [pyStrip ['a', 'b']]) :=
  chunk_text_no_validation ['a', 'b'] 5 7 (by decide) (by decide) (by decide)

/-! ## Claim C5: `get_embeddings_batch` length preservation -/

/-- The batch loop preserves the input length whenever the provider
honours its interface contract (same output length as input on success);
failed batches contribute one sentinel per slot. -/
theorem embedBatchGo_length (ec : EmbedCall) (d0 : Nat)
    (hE : ∀ b r, ec b = some r → r.length = b.length) :
    ∀ l : List String, (embedBatchGo ec d0 l).length = l.length := by
  intro l
  induction l using embedBatchGo.induct ec d0 with
  | case1 => simp [embedBatchGo]
  | case2 h rest ih =>
    rw [embedBatchGo]
    rw [List.length_append, ih]
    cases hec : ec ((h :: rest).take (d0 + 1)) with
    | some r =>
      simp only [hec, hE _ r hec, List.length_take, List.length_drop,
        List.length_cons]
      omega
    | none =>
      simp only [hec, List.length_map, List.length_take, List.length_drop,
        List.length_cons]
      omega

/-- C5 counterexample: with batch size `-1` (the claim quantifies over
every batch size) `range(0, len(texts), -1)` is empty, so the function
returns the empty list for a one-element input — the lengths differ. -/
theorem get_embeddings_batch_negative_size :
    get_embeddings_batch (fun b => some (b.map (fun _ => ([1] : Vec)))) ["x"] (-1)
        = some [] ∧
      ([] : List Vec).length ≠ (["x"] : List String).length := by
  exact ⟨rfl, by decide⟩

/-- C5 amended: for every positive batch size (and a provider honouring
the documented same-length interface contract on successful calls),
`get_embeddings_batch` returns a list of exactly the input's length, in
input order, with failed batches' slots filled by the empty sentinel. -/
theorem get_embeddings_batch_length (ec : EmbedCall) (texts : List String)
    (batchSize : Int) (hbs : 0 < batchSize)
    (hE : ∀ b r, ec b = some r → r.length = b.length) :
    ∃ out, get_embeddings_batch ec texts batchSize = some out ∧
      out.length = texts.length := by
  unfold get_embeddings_batch
  rw [if_neg (by omega), if_neg (by omega)]
  exact ⟨_, rfl, embedBatchGo_length ec _ hE texts⟩

/-- C5 witness: the amended statement at an always-failing provider,
`texts = ["a", "b", "c"]`, `batch_size = 2`. -/
theorem get_embeddings_batch_length_witness :
    ∃ out, get_embeddings_batch (fun _ => none) ["a", "b", "c"] 2 = some out ∧
      out.length = (["a", "b", "c"] : List String).length :=
  get_embeddings_batch_length (fun _ => none) ["a", "b", "c"] 2 (by decide)
    (fun b r h => by cases h)

/-! ## Claim C1: `add_documents` does not exclude sentinel embeddings -/

/-- The write loop hands every document to `collection.add`, paired
positionally with its embedding, whenever the four parallel lists have
equal length. -/
theorem addGo_storedItems (d0 : Nat) :
    ∀ (ids txts : List String) (embs : List Vec) (metas : List MetaDict),
      ids.length = txts.length → ids.length = embs.length →
      ids.length = metas.length →
      storedItems (addGo d0 ids txts embs metas) =
        ids.zip (txts.zip (embs.zip metas)) := by
  intro ids txts embs metas
  induction ids, txts, embs, metas using addGo.induct d0 with
  | case1 txts embs metas =>
    intro h1 h2 h3
    obtain rfl : txts = [] := by
      cases txts with
      | nil => rfl
      | cons a l => simp at h1
    simp [addGo, storedItems]
  | case2 i it txts embs metas ih =>
    intro h1 h2 h3
    rw [addGo]
    unfold storedItems
    rw [List.flatMap_cons]
    have ihh := ih (by simp only [List.length_drop]; omega)
      (by simp only [List.length_drop]; omega)
      (by simp only [List.length_drop]; omega)
    unfold storedItems at ihh
    rw [ihh]
    simp only [List.zip_eq_zipWith, ← List.take_zipWith, ← List.drop_zipWith]
    exact List.take_append_drop (d0 + 1) _

/-- C1 counterexample: one document whose embedding call fails.  The
sentinel (empty) embedding is not excluded: the single `collection.add`
request the code issues contains the item `("doc1", "hello", [], …)` with
the empty vector. -/
theorem add_documents_stores_sentinel :
    (add_documents (fun _ => none) [⟨"doc1", "hello", ⟨none, none⟩⟩] 100).map
        storedItems
      = some [("doc1", "hello", ([] : Vec), (⟨none, none⟩ : MetaDict))] := by
  simp [add_documents, get_embeddings_batch, embedBatchGo, addGo, storedItems]

/-- C1 amended: `add_documents` performs no filtering at all — for every
positive batch size (and a provider honouring the same-length contract on
success) the write requests contain every input document, paired
positionally with its embedding, including the items whose embedding came
back as the empty failure sentinel. -/
theorem add_documents_writes_all (ec : EmbedCall) (docs : List AddDoc)
    (batchSize : Int) (hbs : 0 < batchSize)
    (hE : ∀ b r, ec b = some r → r.length = b.length) :
    ∃ embs reqs,
      get_embeddings_batch ec (docs.map AddDoc.text) batchSize = some embs ∧
      add_documents ec docs batchSize = some reqs ∧
      storedItems reqs =
        (docs.map AddDoc.id).zip ((docs.map AddDoc.text).zip
          (embs.zip (docs.map AddDoc.metadata))) := by
  have hemb : get_embeddings_batch ec (docs.map AddDoc.text) batchSize
      = some (embedBatchGo ec (batchSize.toNat - 1) (docs.map AddDoc.text)) := by
    unfold get_embeddings_batch
    rw [if_neg (by omega), if_neg (by omega)]
  cases hde : docs.isEmpty with
  | true =>
    obtain rfl : docs = [] := List.isEmpty_iff.mp hde
    refine ⟨embedBatchGo ec (batchSize.toNat - 1) [], [], hemb, ?_, ?_⟩
    · unfold add_documents
      rfl
    · simp [storedItems]
  | false =>
    refine ⟨embedBatchGo ec (batchSize.toNat - 1) (docs.map AddDoc.text),
      addGo (batchSize.toNat - 1) (docs.map AddDoc.id) (docs.map AddDoc.text)
        (embedBatchGo ec (batchSize.toNat - 1) (docs.map AddDoc.text))
        (docs.map AddDoc.metadata), hemb, ?_, ?_⟩
    · unfold add_documents
      rw [if_neg (by simp [hde])]
      simp only [hemb]
      rw [if_neg (show ¬(batchSize < 0) by omega)]
    · exact addGo_storedItems _ _ _ _ _ (by simp)
        (by rw [List.length_map,
              embedBatchGo_length ec _ hE (docs.map AddDoc.text), List.length_map])
        (by simp)

/-- C1 amended witness: two documents, every embedding call failing
(`batch_size = 1`); both items are still written, carrying the sentinel. -/
theorem add_documents_writes_all_witness :
    ∃ embs reqs,
      get_embeddings_batch (fun _ => none)
          (([⟨"d1", "t1", ⟨none, none⟩⟩, ⟨"d2", "t2", ⟨none, none⟩⟩] :
            List AddDoc).map AddDoc.text) 1 = some embs ∧
      add_documents (fun _ => none)
          [⟨"d1", "t1", ⟨none, none⟩⟩, ⟨"d2", "t2", ⟨none, none⟩⟩] 1 = some reqs ∧
      storedItems reqs =
        (([⟨"d1", "t1", ⟨none, none⟩⟩, ⟨"d2", "t2", ⟨none, none⟩⟩] :
            List AddDoc).map AddDoc.id).zip
          ((([⟨"d1", "t1", ⟨none, none⟩⟩, ⟨"d2", "t2", ⟨none, none⟩⟩] :
            List AddDoc).map AddDoc.text).zip
            (embs.zip (([⟨"d1", "t1", ⟨none, none⟩⟩, ⟨"d2", "t2", ⟨none, none⟩⟩] :
              List AddDoc).map AddDoc.metadata))) :=
  add_documents_writes_all (fun _ => none)
    [⟨"d1", "t1", ⟨none, none⟩⟩, ⟨"d2", "t2", ⟨none, none⟩⟩] 1 (by decide)
    (fun b r h => by cases h)

/-! ## Claim C2: citations versus context truncation -/

/-- Every supplied result's citation ends up in the fold's accumulator. -/
theorem buildSourcesAux_mem (docs : List RDoc) :
    ∀ (acc : List Citation) (c : Citation),
      c ∈ docs.foldl
          (fun acc d => let c := citeOf d; if c ∈ acc then acc else acc ++ [c]) acc ↔
        c ∈ acc ∨ ∃ d ∈ docs, citeOf d = c := by
  induction docs with
  | nil => intro acc c; simp
  | cons d ds ih =>
    intro acc c
    rw [List.foldl_cons]
    rw [ih]
    constructor
    · intro h
      rcases h with h | h
      · by_cases hc : citeOf d ∈ acc
        · rw [if_pos hc] at h
          exact Or.inl h
        · rw [if_neg hc] at h
          rcases List.mem_append.mp h with h' | h'
          · exact Or.inl h'
          · exact Or.inr ⟨d, List.mem_cons_self d ds, (List.mem_singleton.mp h').symm⟩
      · exact Or.inr (by
          obtain ⟨d', hd', hc⟩ := h
          exact ⟨d', List.mem_cons_of_mem d hd', hc⟩)
    · intro h
      rcases h with h | ⟨d', hd', hc⟩
      · left
        by_cases hc : citeOf d ∈ acc
        · rw [if_pos hc]; exact h
        · rw [if_neg hc]; exact List.mem_append.mpr (Or.inl h)
      · rcases List.mem_cons.mp hd' with rfl | hd'
        · left
          by_cases hin : citeOf d' ∈ acc
          · rw [if_pos hin]; exact hc ▸ hin
          · rw [if_neg hin]
            exact hc ▸ List.mem_append.mpr (Or.inr (List.mem_singleton.mpr rfl))
        · exact Or.inr ⟨d', hd', hc⟩

/-- The fold preserves freedom from duplicates. -/
theorem buildSourcesAux_nodup (docs : List RDoc) :
    ∀ acc : List Citation, acc.Nodup →
      (docs.foldl
        (fun acc d => let c := citeOf d; if c ∈ acc then acc else acc ++ [c]) acc).Nodup := by
  induction docs with
  | nil => intro acc h; exact h
  | cons d ds ih =>
    intro acc h
    rw [List.foldl_cons]
    apply ih
    by_cases hc : citeOf d ∈ acc
    · rw [if_pos hc]; exact h
    · rw [if_neg hc]
      rw [← List.concat_eq_append]
      exact List.Nodup.concat hc h

/-- C2 counterexample: two one-line results with a budget of 20
characters.  The second block (18 characters, running total 36 > 20) is
dropped from the context by the budget cut, yet its citation still
appears in the citation list — `generate_answer` builds `sources` from
all supplied results, independently of `_build_context`'s truncation. -/
theorem sources_include_truncated_result :
    contextGo 20 [⟨"T1", ⟨some "a.docx", none⟩, 0⟩, ⟨"T2", ⟨some "b.docx", none⟩, 0⟩]
        0 0 = ["[문서 1: a.docx]\nT1\n"] ∧
      citeOf ⟨"T2", ⟨some "b.docx", none⟩, 0⟩ ∈
        buildSources [⟨"T1", ⟨some "a.docx", none⟩, 0⟩,
          ⟨"T2", ⟨some "b.docx", none⟩, 0⟩] := by
  constructor
  · rfl
  · rw [buildSources, buildSourcesAux_mem]
    exact Or.inr ⟨⟨"T2", ⟨some "b.docx", none⟩, 0⟩, by simp, rfl⟩

/-- C2 amended: the citation list is deduplicated (by the
`(file_name, type, rounded score)` triple that is citation equality) in
first-seen order, but it reflects all supplied results — including the
ones whose blocks the character budget dropped from the context; it is
computed independently of the truncation. -/
theorem buildSources_dedups_all_supplied (docs : List RDoc) :
    (buildSources docs).Nodup ∧
      ∀ c : Citation, c ∈ buildSources docs ↔ ∃ d ∈ docs, citeOf d = c := by
  constructor
  · exact buildSourcesAux_nodup docs [] List.nodup_nil
  · intro c
    rw [buildSources, buildSourcesAux_mem docs [] c]
    simp

/-! ## Claims C6 and C10: the read path degrades to empty and stays aligned -/

/-- C6: `retrieve_relevant_documents` returns the empty sequence — it does
not raise — whenever the query failed to embed (empty query embedding),
the ChromaDB call raised (caught and turned into the empty dictionary), or
the collection is empty (the query result's inner lists are all empty). -/
theorem retrieve_empty_on_failure (qe : Vec) (raw : Option ChromaRaw)
    (h : qe = [] ∨ ∀ r, raw = some r →
      r.documents.headD [] = [] ∧ r.metadatas.headD [] = [] ∧
        r.distances.headD [] = []) :
    retrieve_relevant_documents (search qe raw) = some [] := by
  rcases h with h | h
  · subst h
    rfl
  · unfold search
    cases hq : qe.isEmpty with
    | true => rfl
    | false =>
      cases raw with
      | none => rfl
      | some r =>
        obtain ⟨h1, h2, h3⟩ := h r rfl
        simp only [Bool.false_eq_true, if_false]
        unfold retrieve_relevant_documents
        rw [h1]
        rfl

/-- C6 witness: a failed query embedding together with a raised ChromaDB
call. -/
theorem retrieve_empty_on_failure_witness :
    retrieve_relevant_documents (search [] none) = some [] :=
  retrieve_empty_on_failure [] none (Or.inl rfl)

/-- The formatting loop succeeds (no `IndexError`) as soon as the two
indexed lists are long enough for every position it visits. -/
theorem retrieveGo_isSome (res : SearchRes) :
    ∀ (ds : List String) (i : Nat),
      i + ds.length ≤ res.metadatas.length → i + ds.length ≤ res.distances.length →
      (retrieveGo res ds i).isSome := by
  intro ds
  induction ds with
  | nil => intro i _ _; rfl
  | cons d ds ih =>
    intro i h1 h2
    unfold retrieveGo
    have hm : i < res.metadatas.length := by simp at h1; omega
    have hd : i < res.distances.length := by simp at h2; omega
    rw [List.getElem?_eq_getElem hm, List.getElem?_eq_getElem hd]
    have := ih (i + 1) (by simp at h1 ⊢; omega) (by simp at h2 ⊢; omega)
    cases hgo : retrieveGo res ds (i + 1) with
    | none => simp [hgo] at this
    | some rest => rfl

/-- C10: the three lists of the dictionary returned by `search` have equal
length (given the ChromaDB interface invariant that its parallel inner
lists are aligned), they are all empty on any failure, and consequently
the retriever's positional indexing never goes out of bounds. -/
theorem search_lists_aligned (qe : Vec) (raw : Option ChromaRaw)
    (h : ∀ r, raw = some r →
      (r.documents.headD []).length = (r.metadatas.headD []).length ∧
      (r.metadatas.headD []).length = (r.distances.headD []).length) :
    ((search qe raw).documents.length = (search qe raw).metadatas.length ∧
      (search qe raw).metadatas.length = (search qe raw).distances.length) ∧
    (retrieve_relevant_documents (search qe raw)).isSome ∧
    (qe = [] ∨ raw = none → search qe raw = emptySearch) := by
  have key : (search qe raw).documents.length = (search qe raw).metadatas.length ∧
      (search qe raw).metadatas.length = (search qe raw).distances.length := by
    unfold search
    cases hq : qe.isEmpty with
    | true => exact ⟨rfl, rfl⟩
    | false =>
      cases raw with
      | none => exact ⟨rfl, rfl⟩
      | some r =>
        obtain ⟨h1, h2⟩ := h r rfl
        simp only [Bool.false_eq_true, if_false]
        exact ⟨h1, h2⟩
  obtain ⟨k1, k2⟩ := key
  refine ⟨⟨k1, k2⟩, ?_, ?_⟩
  · unfold retrieve_relevant_documents
    apply retrieveGo_isSome
    · omega
    · omega
  · intro hfail
    unfold search
    rcases hfail with rfl | rfl
    · rfl
    · cases qe.isEmpty <;> rfl

/-- C10 witness: an aligned two-element ChromaDB result. -/
theorem search_lists_aligned_witness :
    ((search [1] (some ⟨[["a", "b"]], [[⟨none, none⟩, ⟨none, none⟩]], [[0, 0]]⟩)).documents.length
          = (search [1] (some ⟨[["a", "b"]], [[⟨none, none⟩, ⟨none, none⟩]], [[0, 0]]⟩)).metadatas.length ∧
        (search [1] (some ⟨[["a", "b"]], [[⟨none, none⟩, ⟨none, none⟩]], [[0, 0]]⟩)).metadatas.length
          = (search [1] (some ⟨[["a", "b"]], [[⟨none, none⟩, ⟨none, none⟩]], [[0, 0]]⟩)).distances.length) ∧
      (retrieve_relevant_documents
        (search [1] (some ⟨[["a", "b"]], [[⟨none, none⟩, ⟨none, none⟩]], [[0, 0]]⟩))).isSome ∧
      (([1] : Vec) = [] ∨ (some ⟨[["a", "b"]], [[⟨none, none⟩, ⟨none, none⟩]], [[0, 0]]⟩ :
          Option ChromaRaw) = none →
        search [1] (some ⟨[["a", "b"]], [[⟨none, none⟩, ⟨none, none⟩]], [[0, 0]]⟩) = emptySearch) :=
  search_lists_aligned [1] (some ⟨[["a", "b"]], [[⟨none, none⟩, ⟨none, none⟩]], [[0, 0]]⟩)
    (fun r hr => by cases hr; exact ⟨rfl, rfl⟩)

/-! ## Claim C9: `query` caps `retrieved_docs` at three entries -/

/-- C9: whatever the retrieval produced (any `top_k`, any number of
results) and whatever the generation call did, the dictionary returned by
`RAGEngine.query` carries at most 3 entries under `retrieved_docs`
(`retrieved_docs[:3]`; the no-result early return carries zero). -/
theorem query_retrieved_docs_le_three (q : String) (res : SearchRes)
    (llm : String → Option String) (out : QueryResult)
    (h : ragQuery q res llm = some out) : out.retrieved_docs.length ≤ 3 := by
  cases hr : retrieve_relevant_documents res with
  | none => simp [ragQuery, hr] at h
  | some docs =>
    simp only [ragQuery, hr] at h
    split at h
    · cases h
      simp
    · cases h
      simp only [List.length_take]
      omega

/-- C9 witness: an empty retrieval — the early-return dictionary has zero
(hence at most three) retrieved documents. -/
theorem query_retrieved_docs_le_three_witness :
    (⟨"q", "관련된 문서를 찾을 수 없습니다. 다른 질문을 시도해보세요.", [], []⟩ :
        QueryResult).retrieved_docs.length ≤ 3 :=
  query_retrieved_docs_le_three "q" emptySearch (fun _ => none) _ rfl

/-! ## Claim C7: deterministic text-chunk ids -/

/-- Enumeration ids depend only on the list's length, not its entries. -/
theorem enumFrom_map_fst_congr {α : Type} (g : Nat → String) :
    ∀ (n : Nat) (c1 c2 : List α), c1.length = c2.length →
      (c1.enumFrom n).map (fun ic => g ic.1) = (c2.enumFrom n).map (fun ic => g ic.1) := by
  intro n c1
  induction c1 generalizing n with
  | nil =>
    intro c2 h
    have : c2 = [] := List.eq_nil_of_length_eq_zero h.symm
    subst this
    rfl
  | cons a l ih =>
    intro c2 h
    cases c2 with
    | nil => cases h
    | cons b m =>
      simp only [List.enumFrom_cons, List.map_cons]
      rw [ih (n + 1) m (by simpa using h)]

/-- Unfolding of the flattening over the first processed document. -/
theorem buildTextDocuments_cons (d : PDoc) (ds : List PDoc) :
    buildTextDocuments (d :: ds) =
      (d.chunks.enum.map (fun ic =>
        ({ id := pyStem d.file_name ++ "_chunk_" ++ toString ic.1
           text := ic.2
           metadata := ⟨d.file_name, d.file_path, ic.1, "text"⟩ } : TextDoc)))
        ++ buildTextDocuments ds := by
  unfold buildTextDocuments
  rw [List.flatMap_cons]

/-- C7: the text-item ids of `index_documents` are a function of the file
stem and the chunk ordinal alone.  Two runs whose processed documents
agree on `(stem(file_name), number of chunks)` — in particular two runs
over an unchanged document set with the same chunk size, where the
deterministic chunker reproduces the same chunk lists — produce identical
id sequences and identical text-item counts, even if file paths or chunk
contents differ. -/
theorem text_item_ids_deterministic (r1 r2 : List PDoc)
    (h : r1.map (fun d => (pyStem d.file_name, d.chunks.length)) =
      r2.map (fun d => (pyStem d.file_name, d.chunks.length))) :
    (buildTextDocuments r1).map TextDoc.id = (buildTextDocuments r2).map TextDoc.id ∧
      (buildTextDocuments r1).length = (buildTextDocuments r2).length := by
  have hids : (buildTextDocuments r1).map TextDoc.id
      = (buildTextDocuments r2).map TextDoc.id := by
    induction r1 generalizing r2 with
    | nil =>
      cases r2 with
      | nil => rfl
      | cons b m => cases h
    | cons a l ih =>
      cases r2 with
      | nil => cases h
      | cons b m =>
        simp only [List.map_cons, List.cons.injEq, Prod.mk.injEq] at h
        obtain ⟨⟨hstem, hlen⟩, htail⟩ := h
        rw [buildTextDocuments_cons, buildTextDocuments_cons,
          List.map_append, List.map_append, ih m htail]
        congr 1
        simp only [List.map_map]
        have := enumFrom_map_fst_congr
          (fun i => pyStem a.file_name ++ "_chunk_" ++ toString i) 0
          a.chunks b.chunks hlen
        simpa [List.enum, hstem, Function.comp] using this
  refine ⟨hids, ?_⟩
  rw [← List.length_map (buildTextDocuments r1) TextDoc.id, hids, List.length_map]

/-- C7 witness: two runs of the same document under different directories
(different paths, same file name and chunk count): identical ids, equal
counts. -/
theorem text_item_ids_deterministic_witness :
    (buildTextDocuments [⟨"/a/r.docx", "r.docx", "T", ["c1", "c2"], []⟩]).map TextDoc.id
        = (buildTextDocuments [⟨"/b/r.docx", "r.docx", "T2", ["x1", "x2"], []⟩]).map TextDoc.id ∧
      (buildTextDocuments [⟨"/a/r.docx", "r.docx", "T", ["c1", "c2"], []⟩]).length
        = (buildTextDocuments [⟨"/b/r.docx", "r.docx", "T2", ["x1", "x2"], []⟩]).length :=
  text_item_ids_deterministic _ _ rfl

/-! ## Claim C8: the 1200-character scenario -/

/-- Evaluation of the `chunk_text` loop on a 1200-character text free of
boundary delimiters: three windows with starts 0, 400, 800 and ends 500,
900, 1300. -/
theorem chunkLoop_1200 (t : List Char) (h : t.length = 1200)
    (hf : ∀ d ∈ pyDelims, ∀ i, matchAt t d i = false) :
    chunkLoop t 500 100 3 0 [] =
      some [⟨0, 500, pyStrip (pySlice t 0 500)⟩,
        ⟨400, 900, pyStrip (pySlice t 400 900)⟩,
        ⟨800, 1300, pyStrip (pySlice t 800 1300)⟩] := by
  have hs : ∀ a b : Int, snapEnd t a b = b := snapEnd_eq_of_delimFree t hf
  have hlen : (t.length : Int) = 1200 := by rw [h]; norm_num
  norm_num [chunkLoop, hs, hlen]

/-- A replicated list of positive length is non-empty. -/
theorem replicate_ne_nil (n : Nat) (hn : n ≠ 0) (a : Char) :
    List.replicate n a ≠ [] := by
  intro hcontra
  apply hn
  have := congrArg List.length hcontra
  rwa [List.length_replicate] at this

/-- C8 counterexample: the all-space text has exactly 1200 characters and
contains none of the boundary delimiters, yet `chunk_text` with
`size = 500`, `overlap = 100` returns zero chunks, not three — every
window strips to the empty string and is dropped. -/
theorem chunk_text_1200_spaces_no_chunks :
    chunk_text 3 (List.replicate 1200 ' ') 500 100 = some [] := by
  have hf : ∀ d ∈ pyDelims, ∀ i, matchAt (List.replicate 1200 ' ') d i = false := by
    intro d hd
    apply matchAt_replicate_eq_false
    simp only [pyDelims, List.mem_cons, List.not_mem_nil, or_false] at hd
    rcases hd with rfl | rfl | rfl | rfl | rfl | rfl
    · exact ⟨'\n', by simp, by decide⟩
    · exact ⟨'\n', by simp, by decide⟩
    · exact ⟨'.', by simp, by decide⟩
    · exact ⟨'。', by simp, by decide⟩
    · exact ⟨'!', by simp, by decide⟩
    · exact ⟨'?', by simp, by decide⟩
  have hsp : ∀ a b : Int, pyStrip (pySlice (List.replicate 1200 ' ') a b) = [] := by
    intro a b
    apply pyStrip_eq_nil
    intro c hc
    have hc' : c ∈ List.replicate 1200 ' ' :=
      List.take_subset _ _ (List.drop_subset _ _ hc)
    rw [List.eq_of_mem_replicate hc']
    rfl
  unfold chunk_text
  rw [if_neg (by
    rw [List.isEmpty_iff_length_eq_zero, List.length_replicate]
    omega)]
  rw [chunkLoop_1200 _ (by rw [List.length_replicate]) hf]
  simp only [hsp]
  rfl

/-- C8 amended: for every 1200-character text containing none of the
boundary delimiters *and whose three windows do not strip to empty* (for
example any whitespace-free text), `chunk_text` with `size = 500`,
`overlap = 100` returns exactly 3 chunks of lengths at most 500, and the
window starts used are 0, 400 and 800 (each 400 after the previous). -/
theorem chunk_text_1200_three_chunks (t : List Char) (h : t.length = 1200)
    (hf : ∀ d ∈ pyDelims, ∀ i, matchAt t d i = false)
    (h1 : pyStrip (pySlice t 0 500) ≠ [])
    (h2 : pyStrip (pySlice t 400 900) ≠ [])
    (h3 : pyStrip (pySlice t 800 1300) ≠ []) :
    chunk_text 3 t 500 100 =
        some [pyStrip (pySlice t 0 500), pyStrip (pySlice t 400 900),
          pyStrip (pySlice t 800 1300)] ∧
      (∃ recs, chunkLoop t 500 100 3 0 [] = some recs ∧
        recs.map IterRec.start = [0, 400, 800]) ∧
      (pyStrip (pySlice t 0 500)).length ≤ 500 ∧
      (pyStrip (pySlice t 400 900)).length ≤ 500 ∧
      (pyStrip (pySlice t 800 1300)).length ≤ 500 := by
  have hLoop := chunkLoop_1200 t h hf
  refine ⟨?_, ⟨_, hLoop, rfl⟩, ?_, ?_, ?_⟩
  · unfold chunk_text
    rw [if_neg (by simp [List.isEmpty_iff]; intro hnil; rw [hnil] at h; cases h)]
    rw [hLoop]
    simp [chunksOf, h1, h2, h3]
  · calc (pyStrip (pySlice t 0 500)).length ≤ (pySlice t 0 500).length :=
        pyStrip_length_le _
      _ ≤ 500 := by simp [pySlice, pyIdx, h]
  · calc (pyStrip (pySlice t 400 900)).length ≤ (pySlice t 400 900).length :=
        pyStrip_length_le _
      _ ≤ 500 := by simp [pySlice, pyIdx, h]
  · calc (pyStrip (pySlice t 800 1300)).length ≤ (pySlice t 800 1300).length :=
        pyStrip_length_le _
      _ ≤ 500 := by simp [pySlice, pyIdx, h]

/-- C8 witness: the amended statement at the whitespace-free text of 1200
letters `a`. -/
theorem chunk_text_1200_three_chunks_witness :
    chunk_text 3 (List.replicate 1200 'a') 500 100 =
        some [pyStrip (pySlice (List.replicate 1200 'a') 0 500),
          pyStrip (pySlice (List.replicate 1200 'a') 400 900),
          pyStrip (pySlice (List.replicate 1200 'a') 800 1300)] ∧
      (∃ recs, chunkLoop (List.replicate 1200 'a') 500 100 3 0 [] = some recs ∧
        recs.map IterRec.start = [0, 400, 800]) ∧
      (pyStrip (pySlice (List.replicate 1200 'a') 0 500)).length ≤ 500 ∧
      (pyStrip (pySlice (List.replicate 1200 'a') 400 900)).length ≤ 500 ∧
      (pyStrip (pySlice (List.replicate 1200 'a') 800 1300)).length ≤ 500 := by
  have hstrip : ∀ a b : Int,
      pyStrip (pySlice (List.replicate 1200 'a') a b)
        = pySlice (List.replicate 1200 'a') a b := by
    intro a b
    apply pyStrip_eq_self
    intro c hc
    have hc' : c ∈ List.replicate 1200 'a' :=
      List.take_subset _ _ (List.drop_subset _ _ hc)
    rw [List.eq_of_mem_replicate hc']
    rfl
  have e1 : pySlice (List.replicate 1200 'a') 0 500 = List.replicate 500 'a' := by
    unfold pySlice pyIdx
    rw [List.length_replicate]
    norm_num [List.take_replicate, List.drop_replicate]
    omega
  have e2 : pySlice (List.replicate 1200 'a') 400 900 = List.replicate 500 'a' := by
    unfold pySlice pyIdx
    rw [List.length_replicate]
    norm_num [List.take_replicate, List.drop_replicate]
    omega
  have e3 : pySlice (List.replicate 1200 'a') 800 1300 = List.replicate 400 'a' := by
    unfold pySlice pyIdx
    rw [List.length_replicate]
    norm_num [List.take_replicate, List.drop_replicate]
    omega
  refine chunk_text_1200_three_chunks (List.replicate 1200 'a')
    (by rw [List.length_replicate])
    (fun d hd => by
      apply matchAt_replicate_eq_false
      simp only [pyDelims, List.mem_cons, List.not_mem_nil, or_false] at hd
      rcases hd with rfl | rfl | rfl | rfl | rfl | rfl
      · exact ⟨'\n', by simp, by decide⟩
      · exact ⟨'\n', by simp, by decide⟩
      · exact ⟨'.', by simp, by decide⟩
      · exact ⟨'。', by simp, by decide⟩
      · exact ⟨'!', by simp, by decide⟩
      · exact ⟨'?', by simp, by decide⟩)
    ?_ ?_ ?_
  · rw [hstrip, e1]
    exact replicate_ne_nil 500 (by omega) 'a'
  · rw [hstrip, e2]
    exact replicate_ne_nil 500 (by omega) 'a'
  · rw [hstrip, e3]
    exact replicate_ne_nil 400 (by omega) 'a'

end Trouble
